import Mathlib

/-!
Shallow embedding of the SyncedDB file-backend server (`src/index.ts`), restricted to
the versioned record store and its handlers: `readEntity`, `writeEntity`,
`getAllEntities`, `compareCursor`, `handleGet` (list), `handlePost` (create),
`handlePut` (update), `handleDelete` (tombstone delete).

Modelling conventions:
* A store's on-disk directory is an association list from file stem (the slash-stripped
  id) to file content.  File content is either a JSON-parseable entity or unparseable
  garbage (`Content.garbage` models a file whose text fails `JSON.parse`).
* Stored records always carry a server-written ISO timestamp, so an entity's
  `updatedAt` is modelled directly as the millisecond value `new Date(s).getTime()`
  would produce; the handlers only ever use that numeric value.
* A request body is modelled after what the handlers extract from the parsed JSON
  object: `Body.id` is `String(body.id)` when `body.id` is neither `undefined` nor
  `null`; `Body.version` is `some n` when `Number(body.version)` is the (non-NaN)
  number `n` and `none` when it is `NaN` (absent or non-numeric field);
  `Body.payload` is the remaining fields (an object spread `{...body, id, version,
  updatedAt}` overwrites the three reserved keys, so the payload by construction
  excludes them).  `Option Body` models the outcome of `req.json()` (`none` = the
  body text fails JSON parsing).
* Exceptions thrown by `entityPath` (an id whose slash-stripped form is empty) are
  modelled with `Except Unit`; `handleFetch` maps them to a 500 response
  (`serverError`).
-/

namespace SyncedDB

/-- A stored entity: `id`, `version`, server-set `updatedAt` (epoch milliseconds of
the stored ISO timestamp) and the open set of caller-supplied payload fields. -/
structure Entity where
  id : String
  version : Int
  updatedAt : Int
  payload : List (String × String)
  deriving DecidableEq

/-- The fields the handlers extract from a parsed JSON request body (see module
doc comment). -/
structure Body where
  id : Option String
  version : Option Int
  payload : List (String × String)
  deriving DecidableEq

/-- Content of one `<safeId>.json` file: a JSON-parseable entity, or text on which
`JSON.parse` throws. -/
inductive Content where
  | entity (e : Entity)
  | garbage
  deriving DecidableEq

/-- A store directory: file stems paired with file contents, in directory order. -/
abbrev Store := List (String × Content)

/-- `String(id).replace(/[/\\]/g, "")` from `entityPath`. -/
def stripSlashes (s : String) : String :=
  ⟨s.data.filter (fun c => !(c = '/' || c = '\\'))⟩

/-- Read the file with the given stem from the directory. -/
def storeGet : Store → String → Option Content
  | [], _ => none
  | (k, c) :: rest, key => if k = key then some c else storeGet rest key

/-- `Bun.write`: overwrite an existing file in place, otherwise create a new one. -/
def storePut : Store → String → Content → Store
  | [], key, c => [(key, c)]
  | (k, c0) :: rest, key, c =>
    if k = key then (key, c) :: rest else (k, c0) :: storePut rest key c

/-- `readEntity`: resolve `entityPath` (throws on an id that strips to empty), then
read the file and `JSON.parse` it, returning `null` (`none`) when the file is absent
or unparseable. -/
def readEntity (st : Store) (id : String) : Except Unit (Option Entity) :=
  if stripSlashes id = "" then .error ()
  else
    .ok (match storeGet st (stripSlashes id) with
      | some (.entity e) => some e
      | some .garbage => none
      | none => none)

/-- `writeEntity`: resolve `entityPath` for `String(entity.id)` (throws on an id that
strips to empty) and write the serialized entity. -/
def writeEntity (st : Store) (e : Entity) : Except Unit Store :=
  if stripSlashes e.id = "" then .error ()
  else .ok (storePut st (stripSlashes e.id) (.entity e))

/-- Outcome of `PUT /{store}/{id}` (`handlePut`). -/
inductive PutResult where
  | notFound
  | badRequest
  | conflict (current : Entity)
  | noContent
  | serverError
  deriving DecidableEq

/-- Outcome of `POST /{store}` (`handlePost`); `alreadyExists` is the 409 Conflict. -/
inductive PostResult where
  | badRequest
  | alreadyExists
  | noContent
  | serverError
  deriving DecidableEq

/-- Outcome of `DELETE /{store}/{id}` (`handleDelete`). -/
inductive DeleteResult where
  | notFound
  | noContent
  | serverError
  deriving DecidableEq

/-- Outcome of `GET /{store}/{id}` (point read in `handleFetch`). -/
inductive GetOneResult where
  | notFound
  | ok (e : Entity)
  | serverError
  deriving DecidableEq

/-- `handlePut`: read the record, 404 when absent, 400 when the body fails JSON
parsing, 409 carrying the current record unless `Number(body.version)` equals
`existing.version + 1`, else persist the spread body with server-set fields. -/
def handlePut (st : Store) (id : String) (body : Option Body) (now : Int) :
    PutResult × Store :=
  match readEntity st id with
  | .error _ => (.serverError, st)
  | .ok none => (.notFound, st)
  | .ok (some existing) =>
    match body with
    | none => (.badRequest, st)
    | some b =>
      let expectedVersion := existing.version + 1
      if b.version ≠ some expectedVersion then (.conflict existing, st)
      else
        let entity : Entity :=
          { id := existing.id, version := expectedVersion, updatedAt := now,
            payload := b.payload }
        match writeEntity st entity with
        | .error _ => (.serverError, st)
        | .ok st2 => (.noContent, st2)

/-- `handlePost`: 400 when the body fails JSON parsing or `body.id` is
`undefined`/`null`; 409 when a record with that id already parses from disk; else
persist the spread body with `version = 1` and `updatedAt = now`. -/
def handlePost (st : Store) (body : Option Body) (now : Int) : PostResult × Store :=
  match body with
  | none => (.badRequest, st)
  | some b =>
    match b.id with
    | none => (.badRequest, st)
    | some id =>
      match readEntity st id with
      | .error _ => (.serverError, st)
      | .ok (some _) => (.alreadyExists, st)
      | .ok none =>
        let entity : Entity :=
          { id := id, version := 1, updatedAt := now, payload := b.payload }
        match writeEntity st entity with
        | .error _ => (.serverError, st)
        | .ok st2 => (.noContent, st2)

/-- `handleDelete`: 404 when absent, else overwrite with the tombstone
`{id, version: -1, updatedAt: now}` (all payload fields dropped). -/
def handleDelete (st : Store) (id : String) (now : Int) : DeleteResult × Store :=
  match readEntity st id with
  | .error _ => (.serverError, st)
  | .ok none => (.notFound, st)
  | .ok (some existing) =>
    let tombstone : Entity :=
      { id := existing.id, version := -1, updatedAt := now, payload := [] }
    match writeEntity st tombstone with
    | .error _ => (.serverError, st)
    | .ok st2 => (.noContent, st2)

/-- Point read `GET /{store}/{id}` as routed in `handleFetch`. -/
def handleGetOne (st : Store) (id : String) : GetOneResult :=
  match readEntity st id with
  | .error _ => .serverError
  | .ok none => .notFound
  | .ok (some e) => .ok e

/-- `getAllEntities`: read every listed file stem back through `readEntity` and keep
the entities that parse. -/
def getAllEntities (st : Store) : List Entity :=
  st.filterMap (fun kc =>
    match readEntity st kc.1 with
    | .ok (some e) => some e
    | _ => none)

/-- Lexicographic comparison of lists, used to model string comparisons without
relying on opaque builtins. -/
def lexCompare {α : Type} [LinearOrder α] : List α → List α → Ordering
  | [], [] => .eq
  | [], _ :: _ => .lt
  | _ :: _, [] => .gt
  | a :: as, b :: bs =>
    if a < b then .lt else if b < a then .gt else lexCompare as bs

/-- ASCII lower-casing of one character. -/
def lowerChar (c : Char) : Char :=
  if 'A' ≤ c ∧ c ≤ 'Z' then Char.ofNat (c.toNat + 32) else c

/-- Tertiary collation weight of a character: lowercase sorts before uppercase
(and before every non-lowercase character) when the case-folded forms tie. -/
def caseRank (c : Char) : Nat :=
  if 'a' ≤ c ∧ c ≤ 'z' then 0 else 1

/-- Model of JS `String.prototype.localeCompare` under the default (root/English)
collation, restricted to the ASCII range: strings compare primarily by their
case-folded forms, with lowercase ordered before uppercase as tie-break (so
`localeCompareAscii "a" "B" < 0` although `"B" < "a"` in code-unit order).
Returns a negative, zero or positive value like the JS function. -/
def localeCompareAscii (a b : String) : Int :=
  match lexCompare (a.data.map lowerChar) (b.data.map lowerChar) with
  | .lt => -1
  | .gt => 1
  | .eq =>
    match lexCompare (a.data.map caseRank) (b.data.map caseRank) with
    | .lt => -1
    | .gt => 1
    | .eq => 0

/-- `compareCursor`: order by the numeric time of `updatedAt`, tie-breaking with
`localeCompare` on the ids. -/
def compareCursor (a b : Entity) : Int :=
  if a.updatedAt ≠ b.updatedAt then a.updatedAt - b.updatedAt
  else localeCompareAscii a.id b.id

/-- Insert into a `compareCursor`-sorted list, before the first element that does
not compare strictly smaller (stable, like `Array.prototype.sort`). -/
def insertCursor (e : Entity) : List Entity → List Entity
  | [] => [e]
  | x :: xs => if compareCursor e x ≤ 0 then e :: x :: xs else x :: insertCursor e xs

/-- `all.sort(compareCursor)`: stable sort by the cursor comparator. -/
def sortByCursor (l : List Entity) : List Entity :=
  l.foldr insertCursor []

/-- Numeric value of a digit string. -/
def digitsVal (l : List Char) : Nat :=
  l.foldl (fun acc c => acc * 10 + (c.toNat - '0'.toNat)) 0

/-- Value of the longest leading digit run; `none` when there is no leading digit. -/
def digitsPrefixVal (l : List Char) : Option Nat :=
  match l.takeWhile (fun c => c.isDigit) with
  | [] => none
  | ds => some (digitsVal ds)

/-- Model of JS `parseInt(s, 10)`: an optional leading minus sign followed by the
longest digit run; `none` models the `NaN` result (no leading digits). -/
def jsParseInt (s : String) : Option Int :=
  match s.data with
  | '-' :: rest => (digitsPrefixVal rest).map (fun n => -(n : Int))
  | l => (digitsPrefixVal l).map (fun n => (n : Int))

/-- Model of `new Date(s).getTime()` for cursor timestamps: digit strings denote a
time in epoch milliseconds; anything else — in particular the empty string — is an
Invalid Date, whose time is `NaN` (`none`).  Which strings are valid timestamps is
abstracted; the handlers only need parsing to be deterministic and `""` invalid. -/
def dateParse (s : String) : Option Int :=
  if s.data ≠ [] ∧ s.data.all (fun c => c.isDigit) then some (digitsVal s.data)
  else none

/-- JS truthiness of a string-or-undefined query parameter. -/
def truthy : Option String → Bool
  | some s => s ≠ ""
  | none => false

/-- Split a character list at every comma (model of `String.prototype.split(",")`). -/
def splitCommaAux : List Char → List (List Char)
  | [] => [[]]
  | c :: rest =>
    let r := splitCommaAux rest
    if c = ',' then [] :: r
    else
      match r with
      | [] => [[c]]
      | h :: t => (c :: h) :: t

/-- Model of `s.split(",")`. -/
def splitComma (s : String) : List String :=
  (splitCommaAux s.data).map (fun l => ⟨l⟩)

/-- Cursor parsing of `handleGet` (lines 122–135): returns
`(afterDate, afterIdVal)`, where the outer `Option` of the date is JS `null` and the
inner `Option` is the time of a possibly Invalid `Date` (`none` = `NaN`). -/
def parseCursor (after afterId : Option String) :
    Option (Option Int) × Option String :=
  if truthy afterId then
    ((if truthy after then some (dateParse (after.getD "")) else none),
      some (afterId.getD ""))
  else if truthy after then
    let a := after.getD ""
    let parts := splitComma a
    if 2 ≤ parts.length then
      (some (dateParse (parts.getD 0 "")), some (parts.getD 1 ""))
    else
      (some (dateParse a), none)
  else (none, none)

/-- `t < et` where the cursor time `t` may be `NaN` (`none`): every comparison with
`NaN` is false. -/
def timeLt (t : Option Int) (et : Int) : Bool :=
  match t with
  | some tv => tv < et
  | none => false

/-- `t === et` where the cursor time `t` may be `NaN` (`none`). -/
def timeEq (t : Option Int) (et : Int) : Bool :=
  match t with
  | some tv => tv = et
  | none => false

/-- Plain JS string `<` (code-unit lexicographic order), as a Boolean. -/
def jsStrLt (a b : String) : Bool :=
  lexCompare a.data b.data == Ordering.lt

/-- The `findIndex` computation of `handleGet` (lines 140–152): index of the first
sorted record strictly past the cursor; the id comparison is plain JS `>`
(code-unit order), not `localeCompare`. -/
def startIndex (all : List Entity) (afterDate : Option (Option Int))
    (afterIdVal : Option String) : Nat :=
  match afterDate, afterIdVal with
  | some t, some aid =>
    all.findIdx (fun e =>
      timeLt t e.updatedAt || (timeEq t e.updatedAt && jsStrLt aid e.id))
  | some t, none =>
    all.findIdx (fun e => timeLt t e.updatedAt)
  | none, _ => 0

/-- `Math.min(Math.max(1, parseInt(size ?? "100", 10)), 1000)`; `none` models `NaN`
(which propagates through `Math.max` and `Math.min`). -/
def effectiveSize (sizeRaw : Option String) : Option Int :=
  (jsParseInt (sizeRaw.getD "100")).map (fun n => min (max 1 n) 1000)

/-- Start index of the page for the given raw cursor parameters. -/
def listStart (st : Store) (after afterId : Option String) : Nat :=
  let c := parseCursor after afterId
  startIndex (sortByCursor (getAllEntities st)) c.1 c.2

/-- `handleGet` on a collection: parse `size` and the cursor, sort all parseable
records by `compareCursor`, slice `size + 1` records past the cursor (an `end`
index of `NaN` slices nothing), and report `hasMore` by the extra record's
presence, discarding it from the returned page. -/
def handleGetList (st : Store) (sizeRaw after afterId : Option String) :
    List Entity × Bool :=
  let size := effectiveSize sizeRaw
  let sorted := sortByCursor (getAllEntities st)
  let start := listStart st after afterId
  let slice :=
    match size with
    | some n => (sorted.drop start).take (n.toNat + 1)
    | none => []
  let hasMore :=
    match size with
    | some n => decide ((n : Int) < (slice.length : Int))
    | none => false
  let data :=
    if hasMore then
      match size with
      | some n => slice.take n.toNat
      | none => slice
    else slice
  (data, hasMore)

/-- The entity a file's content parses to, if any. -/
def contentEntity : Content → Option Entity
  | .entity e => some e
  | .garbage => none

/-! ### Concrete fixtures used by witnesses and counterexamples -/

/-- A store holding one live record with version 3. -/
def wStore : Store :=
  [("a", .entity { id := "a", version := 3, updatedAt := 5, payload := [("t", "x")] })]

/-- The record stored in `wStore`. -/
def wEnt : Entity := { id := "a", version := 3, updatedAt := 5, payload := [("t", "x")] }

/-- A store holding one tombstone (version -1). -/
def tombStore : Store :=
  [("x", .entity { id := "x", version := -1, updatedAt := 5, payload := [] })]

/-- The tombstone stored in `tombStore`. -/
def tombEnt : Entity := { id := "x", version := -1, updatedAt := 5, payload := [] }

/-- A record whose id is uppercase. -/
def bRec : Entity := { id := "B", version := 1, updatedAt := 0, payload := [] }

/-- A record whose id is lowercase and shares `bRec`'s `updatedAt`. -/
def aRec : Entity := { id := "a", version := 1, updatedAt := 0, payload := [] }

/-- A store whose two records share one `updatedAt` and have ids that locale
collation and code-unit order rank oppositely. -/
def mixedCaseStore : Store := [("B", .entity bRec), ("a", .entity aRec)]

/-- A store holding a single record. -/
def soloStore : Store :=
  [("a", .entity { id := "a", version := 1, updatedAt := 0, payload := [] })]

/-- A record whose id `"b!"` lies strictly between `"b"` and `"b,c"` in code-unit
order. -/
def bangRec : Entity := { id := "b!", version := 1, updatedAt := 10, payload := [] }

/-- A store holding only `bangRec`. -/
def bangStore : Store := [("b!", .entity bangRec)]

/-! ### Theorems -/

/-- C2 (code bug): cursor pagination loses records.  The sort comparator orders ids
with `localeCompare` (locale collation: `"a"` before `"B"`), but the cursor filter
compares ids with plain `>` (code-unit order: `"B" < "a"`), so with two records
sharing one `updatedAt` and ids `"B"` and `"a"`, page size 1, the first page is
`[aRec]` with `hasMore = true`, and the follow-up call with the cursor
`(updatedAt, "a")` of its last record returns the empty page with
`hasMore = false`: record `"B"` is in the store but is never yielded. -/
theorem pagination_skips_mixed_case_ids :
    bRec ∈ getAllEntities mixedCaseStore ∧
    handleGetList mixedCaseStore (some "1") none none = ([aRec], true) ∧
    handleGetList mixedCaseStore (some "1") (some "0") (some "a") = ([], false) := by
  decide

/-- C6 counterexample: a non-numeric `size` is not clamped into [1, 1000] — the
`NaN` from `parseInt` escapes `Math.max`/`Math.min` (`effectiveSize` is `none`,
not `some n` with `1 ≤ n ≤ 1000`) and the request returns the empty page with
`hasMore = false` although a matching record exists beyond that empty page,
contradicting the claimed clamping and the claimed `hasMore` equivalence. -/
theorem size_nan_empty_page :
    handleGetList soloStore (some "abc") none none = ([], false) ∧
    effectiveSize (some "abc") = none ∧
    getAllEntities soloStore ≠ [] := by decide

/-- C6 amended: the clamping of `size` into [1, 1000] (default 100) applies when
`parseInt` yields a number; the returned page then has at most that many records
and `hasMore` holds exactly when a matching record exists beyond the returned page.
When `size` is non-numeric (`parseInt` yields `NaN`), the clamp does not apply: the
request returns the empty page with `hasMore = false`. -/
theorem size_clamp_amended (st : Store) (sizeRaw after afterId : Option String) :
    (sizeRaw = none → effectiveSize sizeRaw = some 100) ∧
    (∀ n : Int, effectiveSize sizeRaw = some n →
      1 ≤ n ∧ n ≤ 1000 ∧
      ((handleGetList st sizeRaw after afterId).1).length ≤ n.toNat ∧
      ((handleGetList st sizeRaw after afterId).2 = true ↔
        n.toNat <
          ((sortByCursor (getAllEntities st)).drop
            (listStart st after afterId)).length)) ∧
    (effectiveSize sizeRaw = none →
      handleGetList st sizeRaw after afterId = ([], false)) := by
  refine ⟨fun h => by subst h; decide, fun n h => ?_, fun h => by
    simp [handleGetList, h]⟩
  rcases Option.map_eq_some'.mp h with ⟨m, hm, hn⟩
  have h1 : 1 ≤ n := hn ▸ le_min (le_max_left _ _) (by norm_num)
  have h2 : n ≤ 1000 := hn ▸ min_le_right _ _
  refine ⟨h1, h2, ?_, ?_⟩
  · simp only [handleGetList, h]
    split
    · rename_i hmore
      simp only [List.length_take]
      omega
    · rename_i hmore
      simp only [decide_eq_true_eq, not_lt, List.length_take] at hmore ⊢
      omega
  · simp only [handleGetList, h, decide_eq_true_eq, List.length_take]
    omega

/-- Witness for C6's amended statement at a concrete store with `size = "1"`. -/
theorem size_clamp_amended_witness :
    1 ≤ (1 : Int) ∧ (1 : Int) ≤ 1000 ∧
    ((handleGetList soloStore (some "1") none none).1).length ≤ (1 : Int).toNat ∧
    ((handleGetList soloStore (some "1") none none).2 = true ↔
      (1 : Int).toNat <
        ((sortByCursor (getAllEntities soloStore)).drop
          (listStart soloStore none none)).length) :=
  (size_clamp_amended soloStore (some "1") none none).2.1 1 (by decide)

/-- C7 counterexample: for an id containing a comma, the comma-joined cursor is not
equivalent to the separate parameters — `after = "10,b,c"` splits into timestamp
`"10"` and id `"b"` (the id's tail is dropped), while `after = "10"` with
`after_id = "b,c"` uses the full id, and the store holding the record with id
`"b!"` (strictly between `"b"` and `"b,c"` in code-unit order) at time 10 yields
different pages. -/
theorem comma_cursor_counterexample :
    handleGetList bangStore none (some "10,b,c") none = ([bangRec], false) ∧
    handleGetList bangStore none (some "10") (some "b,c") = ([], false) ∧
    handleGetList bangStore none (some "10,b,c") none ≠
      handleGetList bangStore none (some "10") (some "b,c") := by decide

/-- Rebuilding a string from its character list is the identity. -/
theorem mk_data (s : String) : String.mk s.data = s := rfl

/-- Splitting a comma-free character list yields the single segment. -/
theorem splitCommaAux_no_comma (l : List Char) (h : ',' ∉ l) :
    splitCommaAux l = [l] := by
  induction l with
  | nil => simp [splitCommaAux]
  | cons c rest ih =>
    have hc : c ≠ ',' := by
      rintro rfl
      exact h (List.mem_cons_self _ _)
    have hr : ',' ∉ rest := fun hm => h (List.mem_cons_of_mem _ hm)
    simp [splitCommaAux, hc, ih hr]

/-- Splitting at the first comma detaches the comma-free head segment. -/
theorem splitCommaAux_append (a b : List Char) (h : ',' ∉ a) :
    splitCommaAux (a ++ ',' :: b) = a :: splitCommaAux b := by
  induction a with
  | nil => simp [splitCommaAux]
  | cons c rest ih =>
    have hc : c ≠ ',' := by
      rintro rfl
      exact h (List.mem_cons_self _ _)
    have hr : ',' ∉ rest := fun hm => h (List.mem_cons_of_mem _ hm)
    simp [splitCommaAux, hc, ih hr]

/-- For a nonempty comma-free timestamp and id, the comma-joined `after` parameter
parses to the same cursor as the separate `after`/`after_id` parameters. -/
theorem parseCursor_comma (T I : String) (hT : T ≠ "") (hI : I ≠ "")
    (hTc : ',' ∉ T.data) (hIc : ',' ∉ I.data) :
    parseCursor (some (T ++ "," ++ I)) none = parseCursor (some T) (some I) := by
  have hdata : (T ++ "," ++ I).data = T.data ++ ',' :: I.data := by
    change T.data ++ [','] ++ I.data = T.data ++ ',' :: I.data
    simp
  have hne : (T ++ "," ++ I) ≠ "" := by
    intro hh
    have h0 : (T ++ "," ++ I).data = ([] : List Char) := by rw [hh]
    rw [hdata] at h0
    simp at h0
  have hsplit : splitComma (T ++ "," ++ I) = [T, I] := by
    unfold splitComma
    rw [hdata, splitCommaAux_append _ _ hTc, splitCommaAux_no_comma _ hIc]
    simp [mk_data]
  simp [parseCursor, truthy, hne, hT, hI, hsplit]

/-- C7 amended: the comma-joined cursor `after = "T,I"` is equivalent to the
separate `after = T`, `after_id = I` parameters provided both `T` and `I` are
nonempty and contain no comma; an id containing a comma (or an empty `T` or `I`)
breaks the equivalence, as the counterexample shows. -/
theorem comma_cursor_amended (st : Store) (sizeRaw : Option String) (T I : String)
    (hT : T ≠ "") (hI : I ≠ "") (hTc : ',' ∉ T.data) (hIc : ',' ∉ I.data) :
    handleGetList st sizeRaw (some (T ++ "," ++ I)) none =
      handleGetList st sizeRaw (some T) (some I) := by
  have hp := parseCursor_comma T I hT hI hTc hIc
  simp only [handleGetList, listStart, hp]

/-- Witness for C7's amended statement at a concrete store and cursor. -/
theorem comma_cursor_amended_witness :
    handleGetList soloStore none (some ("5" ++ "," ++ "a")) none =
      handleGetList soloStore none (some "5") (some "a") :=
  comma_cursor_amended soloStore none "5" "a" (by decide) (by decide) (by decide)
    (by decide)

/-- Writing a file and reading it back by the same stem returns the written
content. -/
theorem storeGet_storePut (st : Store) (k : String) (c : Content) :
    storeGet (storePut st k c) k = some c := by
  induction st with
  | nil => simp [storePut, storeGet]
  | cons kc rest ih =>
    obtain ⟨k0, c0⟩ := kc
    by_cases hk : k0 = k
    · simp [storePut, storeGet, hk]
    · simp [storePut, storeGet, hk, ih]

/-- In a directory without duplicate stems, reading any listed stem returns that
entry's content. -/
theorem storeGet_of_mem_nodup (st : Store) (k : String) (c : Content)
    (hnd : (st.map Prod.fst).Nodup) (hmem : (k, c) ∈ st) :
    storeGet st k = some c := by
  induction st with
  | nil => simp at hmem
  | cons kc rest ih =>
    obtain ⟨k0, c0⟩ := kc
    simp only [List.map_cons, List.nodup_cons] at hnd
    rcases List.mem_cons.mp hmem with heq | hmem2
    · injection heq with hk hc
      simp [storeGet, hk, hc]
    · have hk0 : k0 ≠ k := by
        rintro rfl
        exact hnd.1 (List.mem_map.mpr ⟨(k0, c), hmem2, rfl⟩)
      simp [storeGet, hk0, ih hnd.2 hmem2]

/-- Dropping list entries the extraction function ignores does not change a
`filterMap`. -/
theorem filterMap_filter_key {α β : Type} (p : α → Bool) (f : α → Option β)
    (l : List α) (h : ∀ x ∈ l, p x = false → f x = none) :
    l.filterMap f = (l.filter p).filterMap f := by
  induction l with
  | nil => rfl
  | cons a l ih =>
    have hrest : ∀ x ∈ l, p x = false → f x = none :=
      fun x hx => h x (List.mem_cons_of_mem _ hx)
    cases hpa : p a with
    | false =>
      simp [List.filterMap_cons, List.filter_cons, hpa,
        h a (List.mem_cons_self _ _) hpa, ih hrest]
    | true =>
      cases hfa : f a with
      | none => simp [List.filterMap_cons, List.filter_cons, hpa, hfa, ih hrest]
      | some b => simp [List.filterMap_cons, List.filter_cons, hpa, hfa, ih hrest]

/-- In an API-shaped directory (slash-free nonempty stems, no duplicates),
`getAllEntities` extracts exactly each entry's parsed content. -/
theorem getAllEntities_eq_content (st : Store)
    (hkeys : ∀ kc ∈ st, stripSlashes kc.1 = kc.1 ∧ kc.1 ≠ "")
    (hnd : (st.map Prod.fst).Nodup) :
    getAllEntities st = st.filterMap (fun kc => contentEntity kc.2) := by
  unfold getAllEntities
  apply List.filterMap_congr
  intro kc hmem
  obtain ⟨hstrip, hne⟩ := hkeys kc hmem
  have hget : storeGet st kc.1 = some kc.2 :=
    storeGet_of_mem_nodup st kc.1 kc.2 hnd (by simpa using hmem)
  rw [readEntity, hstrip, if_neg hne, hget]
  cases kc.2 with
  | entity e => rfl
  | garbage => rfl

/-- C8: a stored file whose content fails JSON parsing is indistinguishable from an
absent record at the public interface: point get, update and delete on its id
return `NotFound` with the store unchanged, `list` reads exactly the records of the
store without that file, and create with its id succeeds with version 1, replacing
the unparseable content. -/
theorem garbage_record_invisible (st : Store) (id : String)
    (hkeys : ∀ kc ∈ st, stripSlashes kc.1 = kc.1 ∧ kc.1 ≠ "")
    (hnd : (st.map Prod.fst).Nodup)
    (hg : storeGet st (stripSlashes id) = some .garbage)
    (hid : stripSlashes id ≠ "") :
    handleGetOne st id = .notFound ∧
    (∀ (bo : Option Body) (now : Int), handlePut st id bo now = (.notFound, st)) ∧
    (∀ now : Int, handleDelete st id now = (.notFound, st)) ∧
    getAllEntities st =
      getAllEntities (st.filter (fun kc => decide (kc.1 ≠ stripSlashes id))) ∧
    (∀ (b : Body) (now : Int), b.id = some id →
      handlePost st (some b) now =
        (.noContent, storePut st (stripSlashes id)
          (.entity { id := id, version := 1, updatedAt := now,
                     payload := b.payload }))) := by
  have hre : readEntity st id = .ok none := by simp [readEntity, hid, hg]
  refine ⟨by simp [handleGetOne, hre], fun bo now => ?_,
    fun now => by simp [handleDelete, hre], ?_,
    fun b now hbid => by simp [handlePost, hbid, hre, writeEntity, hid]⟩
  · cases bo with
    | none => simp [handlePut, hre]
    | some b => simp [handlePut, hre]
  · have hkeys2 : ∀ kc ∈ st.filter (fun kc => decide (kc.1 ≠ stripSlashes id)),
        stripSlashes kc.1 = kc.1 ∧ kc.1 ≠ "" :=
      fun kc hm => hkeys kc (List.mem_of_mem_filter hm)
    have hsub : List.Sublist
        ((st.filter (fun kc => decide (kc.1 ≠ stripSlashes id))).map Prod.fst)
        (st.map Prod.fst) :=
      List.Sublist.map Prod.fst (List.filter_sublist st)
    have hnd2 :
        ((st.filter (fun kc => decide (kc.1 ≠ stripSlashes id))).map Prod.fst).Nodup :=
      List.Nodup.sublist hsub hnd
    rw [getAllEntities_eq_content st hkeys hnd,
      getAllEntities_eq_content _ hkeys2 hnd2]
    apply filterMap_filter_key
    intro x hx hpx
    have hx1 : x.1 = stripSlashes id := by simpa using hpx
    have hget : storeGet st x.1 = some x.2 :=
      storeGet_of_mem_nodup st x.1 x.2 hnd (by simpa using hx)
    rw [hx1, hg] at hget
    have hx2 : x.2 = Content.garbage := by
      injection hget.symm
    rw [hx2]
    rfl

/-- A store holding one unparseable file next to one live record. -/
def gStore : Store :=
  [("g", .garbage),
   ("w", .entity { id := "w", version := 2, updatedAt := 3, payload := [("p", "q")] })]

/-- Witness for C8 at a concrete store with an unparseable file. -/
theorem garbage_record_invisible_witness :
    handleGetOne gStore "g" = .notFound ∧
    handlePut gStore "g" (some { id := none, version := some 1, payload := [] }) 7
      = (.notFound, gStore) ∧
    handleDelete gStore "g" 7 = (.notFound, gStore) ∧
    getAllEntities gStore =
      getAllEntities (gStore.filter (fun kc => decide (kc.1 ≠ stripSlashes "g"))) ∧
    handlePost gStore
        (some { id := some "g", version := none, payload := [("n", "m")] }) 7
      = (.noContent, storePut gStore (stripSlashes "g")
          (.entity { id := "g", version := 1, updatedAt := 7,
                     payload := [("n", "m")] })) :=
  have h := garbage_record_invisible gStore "g" (by decide) (by decide) (by rfl)
    (by decide)
  ⟨h.1, h.2.1 (some { id := none, version := some 1, payload := [] }) 7,
   h.2.2.1 7, h.2.2.2.1,
   h.2.2.2.2 { id := some "g", version := none, payload := [("n", "m")] } 7 rfl⟩

/-- C10: point operations address a record by its id with all slashes and
backslashes stripped: two ids with the same stripped form read and write the same
underlying stored record through get, update and delete, and a record created with
a slash-containing id is returned by a get on the stripped id with its `id` field
still holding the slashes. -/
theorem slash_stripped_addressing (st : Store) (i1 i2 : String)
    (h : stripSlashes i1 = stripSlashes i2) :
    readEntity st i1 = readEntity st i2 ∧
    handleGetOne st i1 = handleGetOne st i2 ∧
    (∀ (bo : Option Body) (now : Int),
      handlePut st i1 bo now = handlePut st i2 bo now) ∧
    (∀ now : Int, handleDelete st i1 now = handleDelete st i2 now) ∧
    (∀ (b : Body) (now : Int), b.id = some i1 → readEntity st i1 = .ok none →
      handleGetOne (handlePost st (some b) now).2 i2 =
        .ok { id := i1, version := 1, updatedAt := now, payload := b.payload }) := by
  have hre : readEntity st i1 = readEntity st i2 := by
    simp only [readEntity, h]
  refine ⟨hre, by simp only [handleGetOne, hre],
    fun bo now => by simp only [handlePut, hre],
    fun now => by simp only [handleDelete, hre],
    fun b now hbid hnone => ?_⟩
  have hne : stripSlashes i1 ≠ "" := by
    intro hh
    simp [readEntity, hh] at hnone
  have hst2 : handlePost st (some b) now =
      (.noContent, storePut st (stripSlashes i1)
        (.entity { id := i1, version := 1, updatedAt := now,
                   payload := b.payload })) := by
    simp [handlePost, hbid, hnone, writeEntity, hne]
  rw [hst2]
  simp [handleGetOne, readEntity, ← h, hne, storeGet_storePut]

/-- Witness for C10: id `"n/x"` and its stripped form `"nx"` address one record. -/
theorem slash_stripped_addressing_witness :
    readEntity wStore "n/x" = readEntity wStore "nx" ∧
    handleGetOne wStore "n/x" = handleGetOne wStore "nx" ∧
    handlePut wStore "n/x" none 7 = handlePut wStore "nx" none 7 ∧
    handleDelete wStore "n/x" 7 = handleDelete wStore "nx" 7 ∧
    handleGetOne
        (handlePost wStore
          (some { id := some "n/x", version := none, payload := [("k", "v")] }) 7).2
        "nx"
      = .ok { id := "n/x", version := 1, updatedAt := 7, payload := [("k", "v")] } :=
  have h := slash_stripped_addressing wStore "n/x" "nx" (by decide)
  ⟨h.1, h.2.1, h.2.2.1 none 7, h.2.2.2.1 7,
   h.2.2.2.2 { id := some "n/x", version := none, payload := [("k", "v")] } 7 rfl
     (by rfl)⟩

/-- C1: for an update on an existing record, a submitted version different from the
stored version plus 1 yields `Conflict` carrying the current stored record with the
store unchanged; a missing record yields `NotFound`; a submitted version equal to
the stored version plus 1 persists the caller's payload fields under the same id,
with version `current + 1` and the fresh server-set `updatedAt`. -/
theorem put_version_check (st : Store) (id : String) (b : Body) (now : Int) :
    (readEntity st id = .ok none → handlePut st id (some b) now = (.notFound, st)) ∧
    (∀ e : Entity, readEntity st id = .ok (some e) →
      b.version ≠ some (e.version + 1) →
      handlePut st id (some b) now = (.conflict e, st)) ∧
    (∀ e : Entity, readEntity st id = .ok (some e) →
      b.version = some (e.version + 1) → stripSlashes e.id ≠ "" →
      handlePut st id (some b) now =
        (.noContent, storePut st (stripSlashes e.id)
          (.entity { id := e.id, version := e.version + 1, updatedAt := now,
                     payload := b.payload }))) := by
  refine ⟨fun h => ?_, fun e h hv => ?_, fun e h hv hid => ?_⟩
  · simp [handlePut, h]
  · simp [handlePut, h, hv]
  · simp [handlePut, h, hv, writeEntity, hid]

/-- Witness for C1 at a concrete store: the stale, fresh and missing cases. -/
theorem put_version_check_witness :
    handlePut wStore "a" (some { id := none, version := some 5, payload := [] }) 9
      = (.conflict wEnt, wStore) ∧
    handlePut wStore "a"
        (some { id := none, version := some 4, payload := [("t", "y")] }) 9
      = (.noContent, storePut wStore (stripSlashes wEnt.id)
          (.entity { id := wEnt.id, version := wEnt.version + 1, updatedAt := 9,
                     payload := [("t", "y")] })) ∧
    handlePut wStore "zz" (some { id := none, version := some 1, payload := [] }) 9
      = (.notFound, wStore) :=
  ⟨(put_version_check wStore "a" { id := none, version := some 5, payload := [] } 9).2.1
      wEnt (by rfl) (by decide),
   (put_version_check wStore "a"
      { id := none, version := some 4, payload := [("t", "y")] } 9).2.2
      wEnt (by rfl) (by decide) (by decide),
   (put_version_check wStore "zz" { id := none, version := some 1, payload := [] } 9).1
      (by rfl)⟩

/-- C9: for an existing record with a parseable body, any submitted version other
than the expected next version produces the `Conflict` outcome carrying the current
record and never a 400; a 400 arises only from an unparseable body; and the
existence check precedes body parsing, so a missing record yields `NotFound` even
with an unparseable body. -/
theorem put_error_precedence (st : Store) (id : String) (now : Int) :
    (∀ (e : Entity) (b : Body), readEntity st id = .ok (some e) →
      b.version ≠ some (e.version + 1) →
      handlePut st id (some b) now = (.conflict e, st)) ∧
    (∀ (bodyOpt : Option Body) (st2 : Store),
      handlePut st id bodyOpt now = (.badRequest, st2) → bodyOpt = none) ∧
    (readEntity st id = .ok none → handlePut st id none now = (.notFound, st)) := by
  refine ⟨fun e b h hv => by simp [handlePut, h, hv], fun bodyOpt st2 h => ?_,
    fun h => by simp [handlePut, h]⟩
  cases bodyOpt with
  | none => rfl
  | some b =>
    exfalso
    cases hre : readEntity st id with
    | error u => simp [handlePut, hre] at h
    | ok o =>
      cases o with
      | none => simp [handlePut, hre] at h
      | some e =>
        simp [handlePut, hre] at h
        split at h
        all_goals first
          | simp at h
          | (split at h <;> simp at h)

/-- Witness for C9 at a concrete store: conflict on stale version, not-found with an
unparseable body. -/
theorem put_error_precedence_witness :
    handlePut wStore "a" (some { id := none, version := none, payload := [] }) 9
      = (.conflict wEnt, wStore) ∧
    handlePut wStore "zz" none 9 = (.notFound, wStore) :=
  ⟨(put_error_precedence wStore "a" 9).1 wEnt
      { id := none, version := none, payload := [] } (by rfl) (by decide),
   (put_error_precedence wStore "zz" 9).2.2 (by rfl)⟩

/-- C3: create persists the record with version 1 and the fresh server-set
`updatedAt`, discarding any client-supplied `version` (the body's `version` field is
ignored by the written entity); an id already present — a tombstone included —
yields `AlreadyExists` with the store unchanged. -/
theorem post_create (st : Store) (b : Body) (id : String) (now : Int)
    (hid : b.id = some id) :
    (readEntity st id = .ok none →
      handlePost st (some b) now =
        (.noContent, storePut st (stripSlashes id)
          (.entity { id := id, version := 1, updatedAt := now,
                     payload := b.payload }))) ∧
    (∀ e : Entity, readEntity st id = .ok (some e) →
      handlePost st (some b) now = (.alreadyExists, st)) := by
  constructor
  · intro h
    have hne : stripSlashes id ≠ "" := by
      intro hh
      simp [readEntity, hh] at h
    simp [handlePost, hid, h, writeEntity, hne]
  · intro e h
    simp [handlePost, hid, h]

/-- Witness for C3 at concrete stores: creation into an empty store (any
client-supplied version is discarded), and rejection on an id held by a live record
and on an id held by a tombstone. -/
theorem post_create_witness :
    handlePost [] (some { id := some "n", version := some 7, payload := [("p", "q")] }) 4
      = (.noContent, storePut [] (stripSlashes "n")
          (.entity { id := "n", version := 1, updatedAt := 4,
                     payload := [("p", "q")] })) ∧
    handlePost wStore (some { id := some "a", version := none, payload := [] }) 4
      = (.alreadyExists, wStore) ∧
    handlePost tombStore (some { id := some "x", version := none, payload := [] }) 4
      = (.alreadyExists, tombStore) :=
  ⟨(post_create [] { id := some "n", version := some 7, payload := [("p", "q")] }
      "n" 4 rfl).1 (by rfl),
   (post_create wStore { id := some "a", version := none, payload := [] }
      "a" 4 rfl).2 wEnt (by rfl),
   (post_create tombStore { id := some "x", version := none, payload := [] }
      "x" 4 rfl).2 tombEnt (by rfl)⟩

/-- C4: delete replaces an existing record by the tombstone holding exactly the
unchanged `id`, version -1 and the fresh server-set `updatedAt`, with every payload
field dropped; a missing id yields `NotFound`; deleting an already-tombstoned
record succeeds again, refreshing only `updatedAt`. -/
theorem delete_tombstone (st : Store) (id : String) (now : Int) :
    (readEntity st id = .ok none → handleDelete st id now = (.notFound, st)) ∧
    (∀ e : Entity, readEntity st id = .ok (some e) → stripSlashes e.id ≠ "" →
      handleDelete st id now =
        (.noContent, storePut st (stripSlashes e.id)
          (.entity { id := e.id, version := -1, updatedAt := now, payload := [] }))) ∧
    (∀ e : Entity, readEntity st id = .ok (some e) → e.version = -1 →
      stripSlashes e.id ≠ "" →
      handleDelete st id now =
        (.noContent, storePut st (stripSlashes e.id)
          (.entity { id := e.id, version := -1, updatedAt := now, payload := [] }))) := by
  refine ⟨fun h => ?_, fun e h hid => ?_, fun e h _ hid => ?_⟩
  · simp [handleDelete, h]
  · simp [handleDelete, h, writeEntity, hid]
  · simp [handleDelete, h, writeEntity, hid]

/-- Witness for C4 at concrete stores: deleting a live record, a missing id, and an
already-tombstoned record. -/
theorem delete_tombstone_witness :
    handleDelete wStore "a" 9
      = (.noContent, storePut wStore (stripSlashes wEnt.id)
          (.entity { id := wEnt.id, version := -1, updatedAt := 9, payload := [] })) ∧
    handleDelete wStore "zz" 9 = (.notFound, wStore) ∧
    handleDelete tombStore "x" 9
      = (.noContent, storePut tombStore (stripSlashes tombEnt.id)
          (.entity { id := tombEnt.id, version := -1, updatedAt := 9,
                     payload := [] })) :=
  ⟨(delete_tombstone wStore "a" 9).2.1 wEnt (by rfl) (by decide),
   (delete_tombstone wStore "zz" 9).1 (by rfl),
   (delete_tombstone tombStore "x" 9).2.2 tombEnt (by rfl) (by decide) (by decide)⟩

/-- C5 counterexample: an update on a tombstoned record submitted with version 0
(the tombstone's version -1 plus 1) is not rejected: it succeeds and overwrites the
tombstone with a live version-0 record, so tombstoning is not terminal under
update. -/
theorem tombstone_update_resurrects :
    handlePut tombStore "x"
        (some { id := none, version := some 0, payload := [("text", "hi")] }) 9
      = (.noContent,
          [("x", .entity { id := "x", version := 0, updatedAt := 9,
                           payload := [("text", "hi")] })]) ∧
    (handlePut tombStore "x"
        (some { id := none, version := some 0, payload := [("text", "hi")] }) 9).2
      ≠ tombStore := by decide

/-- C5 amended: updates on a tombstoned record are governed solely by the ordinary
version-mismatch rule with expected next version 0 = (-1) + 1: any submitted
version other than 0 is rejected with `Conflict` and the stored tombstone is
unchanged, while a submitted version of exactly 0 passes the check and overwrites
the tombstone with a live version-0 record. -/
theorem tombstone_update_amended (st : Store) (id : String) (b : Body) (now : Int)
    (e : Entity) (he : readEntity st id = .ok (some e)) (hv : e.version = -1) :
    (b.version ≠ some 0 → handlePut st id (some b) now = (.conflict e, st)) ∧
    (b.version = some 0 → stripSlashes e.id ≠ "" →
      handlePut st id (some b) now =
        (.noContent, storePut st (stripSlashes e.id)
          (.entity { id := e.id, version := 0, updatedAt := now,
                     payload := b.payload }))) := by
  have h0 : e.version + 1 = 0 := by omega
  constructor
  · intro hbv
    rw [← h0] at hbv
    simp [handlePut, he, hbv]
  · intro hbv hid
    rw [← h0] at hbv
    simp [handlePut, he, hbv, writeEntity, hid, h0]

/-- Witness for C5's amended statement: the tombstone rejects version 2 with
`Conflict`, and accepts version 0. -/
theorem tombstone_update_amended_witness :
    handlePut tombStore "x" (some { id := none, version := some 2, payload := [] }) 9
      = (.conflict tombEnt, tombStore) ∧
    handlePut tombStore "x"
        (some { id := none, version := some 0, payload := [("k", "v")] }) 9
      = (.noContent, storePut tombStore (stripSlashes tombEnt.id)
          (.entity { id := tombEnt.id, version := 0, updatedAt := 9,
                     payload := [("k", "v")] })) :=
  ⟨(tombstone_update_amended tombStore "x"
      { id := none, version := some 2, payload := [] } 9 tombEnt (by rfl) (by decide)).1
      (by decide),
   (tombstone_update_amended tombStore "x"
      { id := none, version := some 0, payload := [("k", "v")] } 9 tombEnt (by rfl)
      (by decide)).2 (by decide) (by decide)⟩

end SyncedDB
